import Mathlib

/-!
Verification of the route-resolution and request-dispatch pipeline documented
by the burger-api website.  The repository itself ships only documentation
(Markdown pages, examples, release notes); the router trie, the matcher and
the middleware pipeline are described declaratively across those pages and in
spec.md but are not implemented in this repository.  Every definition below is
therefore a model built from the specification text (and the documentation
pages it was written from), as faithful to their words as possible.
-/

namespace BurgerApi

/-! ## Values, schemas and the validation collaborator -/

/-- Modelled from the spec: the primitive type a field schema can require
(the documentation examples validate string and number fields). -/
inductive JTy where
  | string
  | number
deriving DecidableEq, Repr

/-- Modelled from the spec: a JSON-like input value for a single field of a
request input source (body, query or params). -/
inductive JVal where
  | str (s : String)
  | num (n : Int)
deriving DecidableEq, Repr

/-- Modelled from the spec: one structured validation failure, carrying a
machine-readable code, the offending field path and a human-readable
message, as in the documented error response format. -/
structure Issue where
  code : String
  path : List String
  message : String
deriving DecidableEq, Repr

/-- Modelled from the spec: an object schema for one input source: a list of
required fields with their primitive types. -/
def Schema := List (String × JTy)
deriving DecidableEq

/-- Modelled from the spec: the optional validation schema a route declares
per input source (params, query, body). -/
structure SchemaSet where
  params : Option Schema
  query : Option Schema
  body : Option Schema
deriving DecidableEq

/-- Display name of a primitive schema type, used in failure messages. -/
def JTy.typeName : JTy → String
  | .string => "string"
  | .number => "number"

/-- Display name of the runtime type of a value, used in failure messages. -/
def JVal.typeName : JVal → String
  | .str _ => "string"
  | .num _ => "number"

/-- Whether a value has the primitive type a field schema requires. -/
def JVal.hasTy : JVal → JTy → Bool
  | .str _, .string => true
  | .num _, .number => true
  | _, _ => false

/-- Modelled from the spec: the validation engine collaborator.  Checks each
declared field of an object schema against the raw input fields and returns
the structured failures: a missing or wrongly typed field yields one entry
with code invalid_type, the field path, and a message naming the expected
and received types. -/
def validateSchema (sch : Schema) (input : List (String × JVal)) : List Issue :=
  sch.foldr
    (fun kv acc =>
      match input.lookup kv.1 with
      | none =>
          { code := "invalid_type", path := [kv.1],
            message := "Invalid input: expected " ++ kv.2.typeName
              ++ ", received undefined" } :: acc
      | some v =>
          if v.hasTy kv.2 then acc
          else
            { code := "invalid_type", path := [kv.1],
              message := "Invalid input: expected " ++ kv.2.typeName
                ++ ", received " ++ v.typeName } :: acc)
    []

/-! ## Requests, responses, middleware outcomes -/

/-- Modelled from the spec: the body of a response.  A validation failure
response groups its failures by input source (params, query, body); other
bodies are opaque to the dispatcher. -/
inductive Body where
  | empty
  | text (s : String)
  | errors (params : List Issue) (query : List Issue) (body : List Issue)
deriving DecidableEq, Repr

/-- Modelled from the spec: the response object handed back to the HTTP
transport collaborator. -/
structure Resp where
  status : Nat
  body : Body
deriving DecidableEq, Repr

/-- Modelled from the spec: the per-request context carried through the
pipeline: method, extracted path parameters, query fields, parsed body
fields, wildcard-captured segments and the validated-data slots populated
by the validation stage. -/
structure Ctx where
  method : String
  params : List (String × String)
  query : List (String × JVal)
  body : List (String × JVal)
  wildcard : List String
  validated : Option (List (String × JVal) × List (String × JVal) × List (String × JVal))
deriving DecidableEq

/-- Modelled from the spec: the tagged variant a middleware returns:
continue to the next stage, respond early (terminating the chain), or
register a response post-processor and continue. -/
inductive Outcome where
  | next
  | respond (r : Resp)
  | transform (f : Resp → Resp)

/-- Whether an outcome short-circuits the pipeline. -/
def Outcome.isRespond : Outcome → Bool
  | .respond _ => true
  | _ => false

/-- Modelled from the spec: a middleware: a named function from the request
context to an outcome. -/
structure Mw where
  name : String
  run : Ctx → Outcome

/-- Observable pipeline events, recording which stages executed and in what
order: a middleware by name, the validation stage, and the handler. -/
inductive Event where
  | mw (name : String)
  | validation
  | handler
deriving DecidableEq, Repr

/-! ## The dispatcher -/

/-- The outcomes a middleware list produces on a fixed context, in list
order. -/
def outcomesOf (ms : List Mw) (ctx : Ctx) : List Outcome :=
  ms.map (fun m => m.run ctx)

/-- The post-processors registered by a list of outcomes, in registration
order. -/
def transformsOf : List Outcome → List (Resp → Resp)
  | [] => []
  | .transform f :: os => f :: transformsOf os
  | _ :: os => transformsOf os

/-- Modelled from the spec: run one middleware list in order.  Returns the
events in execution order, the post-processors registered (in registration
order), and the early response if some middleware short-circuited; a
short-circuit stops the list immediately. -/
def runMws : List Mw → Ctx → List Event × List (Resp → Resp) × Option Resp
  | [], _ => ([], [], none)
  | m :: ms, ctx =>
    match m.run ctx with
    | .respond r => ([Event.mw m.name], [], some r)
    | .next =>
        let rest := runMws ms ctx
        (Event.mw m.name :: rest.1, rest.2.1, rest.2.2)
    | .transform f =>
        let rest := runMws ms ctx
        (Event.mw m.name :: rest.1, f :: rest.2.1, rest.2.2)

/-- Modelled from the spec: TRANSFORM_UNWIND.  Apply the registered
post-processors to the current response in reverse order of registration:
the last pushed runs first, so with registration-ordered fs the result is
fs.foldr. -/
def applyTransforms (fs : List (Resp → Resp)) (r : Resp) : Resp :=
  fs.foldr (fun f acc => f acc) r

/-- Modelled from the spec: the validation stage's verdict: the failures for
each declared input source of the matched route's schema (an undeclared
source contributes no failures).  Path parameters are validated as the
strings extracted from the path. -/
def validateAll (ss : SchemaSet) (ctx : Ctx) :
    List Issue × List Issue × List Issue :=
  ( match ss.params with
    | some sch => validateSchema sch (ctx.params.map (fun kv => (kv.1, JVal.str kv.2)))
    | none => []
  , match ss.query with
    | some sch => validateSchema sch ctx.query
    | none => []
  , match ss.body with
    | some sch => validateSchema sch ctx.body
    | none => [] )

/-- Whether the validation stage passes: no declared source produced a
failure (vacuously true when the route declares no schema). -/
def validationOk (ss? : Option SchemaSet) (ctx : Ctx) : Bool :=
  match ss? with
  | none => true
  | some ss =>
    let v := validateAll ss ctx
    v.1.isEmpty && v.2.1.isEmpty && v.2.2.isEmpty

/-- Modelled from the spec: the structured 400 response produced when
validation fails, grouping failures by source. -/
def validationErrorResp (ep eq eb : List Issue) : Resp :=
  { status := 400, body := Body.errors ep eq eb }

/-- Modelled from the spec: on validation success the validated values are
exposed to subsequent stages through the context's validated slots; without
a schema the context is unchanged. -/
def ctxAfterValidation (ss? : Option SchemaSet) (ctx : Ctx) : Ctx :=
  match ss? with
  | none => ctx
  | some _ =>
    { ctx with
      validated := some (ctx.params.map (fun kv => (kv.1, JVal.str kv.2)),
        ctx.query, ctx.body) }

/-- The pipeline events the validation stage contributes: one validation
event when the route declares a schema, none otherwise. -/
def validationEvents : Option SchemaSet → List Event
  | some _ => [Event.validation]
  | none => []

/-- The result of one dispatch: the stage events in execution order and the
final response. -/
structure DispatchResult where
  trace : List Event
  response : Resp
deriving DecidableEq

/-- Modelled from the spec: the route-middleware / handler tail of the
pipeline, entered only when neither global middleware nor validation
short-circuited.  Runs the route middleware list, then the handler if no
route middleware responded, then unwinds all registered post-processors. -/
def dispatchTail (t0 : List Event) (fs0 : List (Resp → Resp))
    (rms : List Mw) (handler : Ctx → Resp) (ctx : Ctx) : DispatchResult :=
  let r := runMws rms ctx
  match r.2.2 with
  | some resp =>
      { trace := t0 ++ r.1, response := applyTransforms (fs0 ++ r.2.1) resp }
  | none =>
      { trace := t0 ++ r.1 ++ [Event.handler]
      , response := applyTransforms (fs0 ++ r.2.1) (handler ctx) }

/-- Modelled from the spec: the dispatcher state machine
START, GLOBAL_MIDDLEWARE, VALIDATION (if a schema is declared),
ROUTE_MIDDLEWARE, HANDLER, TRANSFORM_UNWIND, DONE.  Global middleware run
in registration order; a Respond outcome jumps directly to the unwind with
that response; validation runs only when the route declares a schema and on
failure jumps to the unwind with the structured 400 response; otherwise the
route middleware and handler run, and every registered post-processor is
applied to the final response in reverse order of registration. -/
def dispatch (global : List Mw) (ss? : Option SchemaSet) (rms : List Mw)
    (handler : Ctx → Resp) (ctx : Ctx) : DispatchResult :=
  let g := runMws global ctx
  match g.2.2 with
  | some resp => { trace := g.1, response := applyTransforms g.2.1 resp }
  | none =>
    match ss? with
    | none => dispatchTail g.1 g.2.1 rms handler ctx
    | some ss =>
      let v := validateAll ss ctx
      if v.1.isEmpty && v.2.1.isEmpty && v.2.2.isEmpty then
        dispatchTail (g.1 ++ [Event.validation]) g.2.1 rms handler
          (ctxAfterValidation (some ss) ctx)
      else
        { trace := g.1 ++ [Event.validation]
        , response := applyTransforms g.2.1 (validationErrorResp v.1 v.2.1 v.2.2) }

/-! ## The route trie -/

/-- Modelled from the spec: the kind of one parsed pattern segment: a static
literal, a dynamic single-segment parameter written [name], a terminal
wildcard written [...], or a parenthesized grouping segment that is elided
and contributes no trie edge. -/
inductive PatSeg where
  | lit (s : String)
  | dyn (p : String)
  | wild
  | group (s : String)
deriving DecidableEq, Repr

/-- Modelled from the spec: the registration-time error taxonomy. -/
inductive RegError where
  | conflictingSegmentKind
  | duplicateRoute
  | wildcardNotTerminal
deriving DecidableEq, Repr

/-- Modelled from the spec: a registered endpoint: an opaque handler
reference, the optional validation schema per input source, and opaque
references to the route-specific middleware list. -/
structure RouteEntry where
  handlerRef : Nat
  schema : Option SchemaSet
  middlewareRefs : List Nat
deriving DecidableEq

/-- Modelled from the spec: a trie node: statically keyed children, at most
one dynamic child (with its parameter name), at most one wildcard child,
and the method table of registered entries at this node. -/
inductive RouteNode where
  | node (statics : List (String × RouteNode))
      (dyn : Option (String × RouteNode))
      (wild : Option RouteNode)
      (entries : List (String × RouteEntry))

/-- The statically keyed children of a node. -/
def RouteNode.statics : RouteNode → List (String × RouteNode)
  | .node s _ _ _ => s

/-- The dynamic child of a node, with its parameter name. -/
def RouteNode.dyn : RouteNode → Option (String × RouteNode)
  | .node _ d _ _ => d

/-- The wildcard child of a node. -/
def RouteNode.wild : RouteNode → Option RouteNode
  | .node _ _ w _ => w

/-- The method table of a node. -/
def RouteNode.entries : RouteNode → List (String × RouteEntry)
  | .node _ _ _ e => e

/-- A node with no children and no entries. -/
def emptyNode : RouteNode := .node [] none none []

/-- Find the static child keyed by a literal segment. -/
def findStatic (n : RouteNode) (s : String) : Option RouteNode :=
  n.statics.lookup s

/-- Look up the entry registered for a method in a method table. -/
def lookupEntry (es : List (String × RouteEntry)) (m : String) : Option RouteEntry :=
  es.lookup m

/-- Replace the static child keyed by a literal (or append it if absent),
leaving all other keys untouched. -/
def setStatic : List (String × RouteNode) → String → RouteNode →
    List (String × RouteNode)
  | [], s, c => [(s, c)]
  | kv :: rest, s, c =>
      if kv.1 = s then (s, c) :: rest else kv :: setStatic rest s c

/-- Modelled from the spec: insertion of one parsed pattern into the trie.
Walks and creates nodes segment by segment; fails with
conflictingSegmentKind when a dynamic segment is inserted where a wildcard
sibling already exists at that depth (or vice versa), with duplicateRoute
when the same method is registered twice at the same terminal node, and
with wildcardNotTerminal when a wildcard segment is not last. -/
def insert (n : RouteNode) : List PatSeg → String → RouteEntry →
    Except RegError RouteNode
  | [], m, e =>
      match lookupEntry n.entries m with
      | some _ => .error .duplicateRoute
      | none => .ok (.node n.statics n.dyn n.wild (n.entries ++ [(m, e)]))
  | .group _ :: rest, m, e => insert n rest m e
  | .lit s :: rest, m, e =>
      let child := (findStatic n s).getD emptyNode
      match insert child rest m e with
      | .error er => .error er
      | .ok c' => .ok (.node (setStatic n.statics s c') n.dyn n.wild n.entries)
  | .dyn p :: rest, m, e =>
      if n.wild.isSome then .error .conflictingSegmentKind
      else
        let pc := n.dyn.getD (p, emptyNode)
        match insert pc.2 rest m e with
        | .error er => .error er
        | .ok c' => .ok (.node n.statics (some (pc.1, c')) n.wild n.entries)
  | .wild :: rest, m, e =>
      if rest ≠ [] then .error .wildcardNotTerminal
      else if n.dyn.isSome then .error .conflictingSegmentKind
      else
        let w := n.wild.getD emptyNode
        match lookupEntry w.entries m with
        | some _ => .error .duplicateRoute
        | none =>
            .ok (.node n.statics n.dyn
              (some (.node w.statics w.dyn w.wild (w.entries ++ [(m, e)])))
              n.entries)

/-- Modelled from the spec: classify one raw pattern segment by its syntax:
[...] is a wildcard, [name] a dynamic parameter, (name) a grouping segment,
anything else a static literal. -/
def classifySeg (s : String) : PatSeg :=
  let cs := s.data
  if cs = ['[', '.', '.', '.', ']'] then .wild
  else if cs.head? = some '[' ∧ cs.getLast? = some ']' then
    .dyn (String.mk (cs.drop 1).dropLast)
  else if cs.head? = some '(' ∧ cs.getLast? = some ')' then
    .group (String.mk (cs.drop 1).dropLast)
  else .lit s

/-- Collect the slash-separated segments of a character list; cur holds the
characters of the segment currently being read, in reverse. -/
def splitSegsAux (cur : List Char) : List Char → List String
  | [] => if cur.isEmpty then [] else [String.mk cur.reverse]
  | c :: cs =>
      if c = '/' then
        if cur.isEmpty then splitSegsAux [] cs
        else String.mk cur.reverse :: splitSegsAux [] cs
      else splitSegsAux (c :: cur) cs

/-- Split a path into its nonempty slash-separated segments. -/
def splitPath (p : String) : List String :=
  splitSegsAux [] p.data

/-- Modelled from the spec: parse a path pattern into ordered segments,
resolving grouping segments away; fails with wildcardNotTerminal when a
wildcard segment is followed by further segments. -/
def parsePattern (p : String) : Except RegError (List PatSeg) :=
  let segs := ((splitPath p).map classifySeg).filter
    (fun s => match s with | .group _ => false | _ => true)
  if segs.dropLast.any (fun s => s = PatSeg.wild) then
    .error .wildcardNotTerminal
  else .ok segs

/-- Modelled from the spec: registration of one route declaration: parse the
pattern, then insert it. -/
def register (n : RouteNode) (pattern m : String) (e : RouteEntry) :
    Except RegError RouteNode :=
  match parsePattern pattern with
  | .error er => .error er
  | .ok segs => insert n segs m e

/-- Modelled from the spec: the transient per-request match result: the
matched entry with its extracted parameters and wildcard capture, or
MethodNotAllowed when the resolved node has entries only for other
methods, or NotFound. -/
inductive MatchOutcome where
  | found (e : RouteEntry) (params : List (String × String)) (wildcard : List String)
  | methodNotAllowed
  | notFound
deriving DecidableEq

/-- Resolve a wildcard child reached by the matcher: the capture is all the
remaining request segments; the wildcard node's own method table decides
between found, methodNotAllowed and notFound. -/
def wildOutcome (w : RouteNode) (acc : List (String × String))
    (rest : List String) (m : String) : MatchOutcome :=
  match lookupEntry w.entries m with
  | some e => .found e acc rest
  | none => if w.entries.isEmpty then .notFound else .methodNotAllowed

/-- Modelled from the spec: the matcher walk.  At each node the children are
tried in strict priority order: exact static literal first, then the
dynamic child (binding the segment's literal string to its parameter),
then the wildcard child (consuming all remaining segments, including
zero); the first matching child commits, with no backtracking.  An
exhausted path at a node with entries resolves there (methodNotAllowed
when the method is absent); at an entryless node a wildcard child still
matches with an empty capture. -/
def matchAt (n : RouteNode) (acc : List (String × String)) :
    List String → String → MatchOutcome
  | [], m =>
      if n.entries.isEmpty then
        match n.wild with
        | some w => wildOutcome w acc [] m
        | none => .notFound
      else
        match lookupEntry n.entries m with
        | some e => .found e acc []
        | none => .methodNotAllowed
  | s :: rest, m =>
      match findStatic n s with
      | some c => matchAt c acc rest m
      | none =>
        match n.dyn with
        | some pc => matchAt pc.2 (acc ++ [(pc.1, s)]) rest m
        | none =>
          match n.wild with
          | some w => wildOutcome w acc (s :: rest) m
          | none => .notFound

/-- The entry point of the matcher: resolve a request method and path
against the trie root. -/
def resolve (root : RouteNode) (m path : String) : MatchOutcome :=
  matchAt root [] (splitPath path) m

/-- Follow only static children along literal segments (the shape of a
registered static route's path). -/
def staticResolve (n : RouteNode) : List String → Option RouteNode
  | [] => some n
  | s :: rest =>
      match findStatic n s with
      | some c => staticResolve c rest
      | none => none

/-- Follow the matcher's committed child at each request segment (static
first, else dynamic), returning the reached node and the parameter
bindings collected on the way; none when some segment has neither a static
nor a dynamic continuation. -/
def walk (n : RouteNode) : List String →
    Option (RouteNode × List (String × String))
  | [] => some (n, [])
  | s :: rest =>
      match findStatic n s with
      | some c => walk c rest
      | none =>
        match n.dyn with
        | some pc =>
            match walk pc.2 rest with
            | some tr => some (tr.1, (pc.1, s) :: tr.2)
            | none => none
        | none => none

/-- Follow the children the registrar walks for a pattern: static children
along literals, the dynamic child at a dynamic segment, the wildcard child
at a wildcard segment. -/
def descendPat (n : RouteNode) : List PatSeg → Option RouteNode
  | [] => some n
  | .lit s :: rest =>
      match findStatic n s with
      | some c => descendPat c rest
      | none => none
  | .dyn _ :: rest =>
      match n.dyn with
      | some pc => descendPat pc.2 rest
      | none => none
  | .wild :: rest =>
      match n.wild with
      | some w => descendPat w rest
      | none => none
  | .group _ :: rest => descendPat n rest

/-- The node a request path resolves to under the matcher's committed walk:
the entry-bearing node whose method table decides between found and
methodNotAllowed; none when the walk dead-ends or only reaches entryless
nodes. -/
def resolvedNode (n : RouteNode) : List String → Option RouteNode
  | [] =>
      if n.entries.isEmpty then
        match n.wild with
        | some w => if w.entries.isEmpty then none else some w
        | none => none
      else some n
  | s :: rest =>
      match findStatic n s with
      | some c => resolvedNode c rest
      | none =>
        match n.dyn with
        | some pc => resolvedNode pc.2 rest
        | none =>
          match n.wild with
          | some w => if w.entries.isEmpty then none else some w
          | none => none

/-- Modelled from the spec: the structural invariant that no node of the
trie simultaneously has a dynamic child and a wildcard child. -/
inductive NoMix : RouteNode → Prop where
  | node {statics dyn wild entries} :
      ¬(dyn.isSome = true ∧ wild.isSome = true) →
      (∀ kv ∈ statics, NoMix kv.2) →
      (∀ p c, dyn = some (p, c) → NoMix c) →
      (∀ w, wild = some w → NoMix w) →
      NoMix (.node statics dyn wild entries)

/-! ## Concrete routes, middleware and requests from the documentation
scenarios -/

/-- The entry registered for the static documentation route
/admin/settings. -/
def entryStatic : RouteEntry := ⟨1, none, []⟩

/-- The entry registered for the dynamic documentation route
/admin/[section]. -/
def entrySection : RouteEntry := ⟨2, none, []⟩

/-- The entry registered for the wildcard documentation route
/files/[...]. -/
def entryFiles : RouteEntry := ⟨3, none, []⟩

/-- The entry registered for the dynamic documentation route /users/[id]. -/
def entryUser : RouteEntry := ⟨4, none, []⟩

/-- The trie of the documentation scenario with /admin/settings (static)
and /admin/[section] (dynamic) both registered for GET. -/
def adminTrieE : Except RegError RouteNode :=
  match register emptyNode "/admin/settings" "GET" entryStatic with
  | .error er => .error er
  | .ok n => register n "/admin/[section]" "GET" entrySection

/-- The admin scenario trie, unwrapped. -/
def adminTrie : RouteNode := adminTrieE.toOption.getD emptyNode

/-- The node the admin trie holds at the literal path admin/settings. -/
def adminSettingsNode : RouteNode :=
  (staticResolve adminTrie ["admin", "settings"]).getD emptyNode

/-- The trie of the documentation scenario with /files/[...] registered for
GET. -/
def filesTrie : RouteNode :=
  (register emptyNode "/files/[...]" "GET" entryFiles).toOption.getD emptyNode

/-- The node the files trie holds at the literal segment files. -/
def filesNode : RouteNode :=
  (staticResolve filesTrie ["files"]).getD emptyNode

/-- The wildcard child under files. -/
def filesWildNode : RouteNode := filesNode.wild.getD emptyNode

/-- The trie of the documentation scenario with /users/[id] registered for
GET. -/
def usersTrie : RouteNode :=
  (register emptyNode "/users/[id]" "GET" entryUser).toOption.getD emptyNode

/-- The node the users trie holds at the literal segment users. -/
def usersNode : RouteNode :=
  (staticResolve usersTrie ["users"]).getD emptyNode

/-- The dynamic child under users, bound to the parameter id. -/
def userIdNode : RouteNode := (usersNode.dyn.getD ("id", emptyNode)).2

/-- A trie exercising the no-backtracking policy: /a/b (static) and /[x]/c
(dynamic) both registered for GET. -/
def deadEndTrie : RouteNode :=
  ((match register emptyNode "/a/b" "GET" entryStatic with
    | .error er => .error er
    | .ok n => register n "/[x]/c" "GET" entrySection :
      Except RegError RouteNode)).toOption.getD emptyNode

/-- The static child of the dead-end trie at segment a. -/
def deadEndANode : RouteNode :=
  (findStatic deadEndTrie "a").getD emptyNode

/-- The dynamic child of the dead-end trie root. -/
def deadEndDynNode : RouteNode :=
  (deadEndTrie.dyn.getD ("x", emptyNode)).2

/-- A trie exercising the no-backtracking policy against a wildcard
sibling: /a/b (static) and /[...] (wildcard) both registered for GET. -/
def deadEndWildTrie : RouteNode :=
  ((match register emptyNode "/a/b" "GET" entryStatic with
    | .error er => .error er
    | .ok n => register n "/[...]" "GET" entrySection :
      Except RegError RouteNode)).toOption.getD emptyNode

/-- The static child of the wildcard dead-end trie at segment a. -/
def deadEndWildANode : RouteNode :=
  (findStatic deadEndWildTrie "a").getD emptyNode

/-- The wildcard child of the wildcard dead-end trie root. -/
def deadEndWildNode : RouteNode :=
  deadEndWildTrie.wild.getD emptyNode

/-- The trie with the dynamic route /products/[id] registered for GET,
used to exercise the sibling-conflict registration error. -/
def productsTrie : RouteNode :=
  (insert emptyNode [PatSeg.lit "products", PatSeg.dyn "id"] "GET"
    entryStatic).toOption.getD emptyNode

/-- The node of the products trie at the literal segment products. -/
def productsNode : RouteNode :=
  (findStatic productsTrie "products").getD emptyNode

/-- A middleware that continues. -/
def mwNext (nm : String) : Mw := ⟨nm, fun _ => .next⟩

/-- A middleware that short-circuits with a fixed response. -/
def mwRespond (nm : String) (r : Resp) : Mw := ⟨nm, fun _ => .respond r⟩

/-- A middleware that registers a response post-processor and continues. -/
def mwTrans (nm : String) (f : Resp → Resp) : Mw := ⟨nm, fun _ => .transform f⟩

/-- A post-processor that tags the response body text, so that the order of
application is observable. -/
def tagBody (t : String) (r : Resp) : Resp :=
  { status := r.status
  , body := match r.body with
      | .text s => .text (s ++ "+" ++ t)
      | b => b }

/-- The documented POST body schema requiring a string field name. -/
def demoSchema : SchemaSet := ⟨none, none, some [("name", JTy.string)]⟩

/-- The documented failing request context: a POST whose body carries the
number 5 under name. -/
def demoBadCtx : Ctx := ⟨"POST", [], [], [("name", JVal.num 5)], [], none⟩

/-- A request context whose body satisfies the demo schema. -/
def demoGoodCtx : Ctx := ⟨"POST", [], [], [("name", JVal.str "bob")], [], none⟩

/-- A fixed handler producing a 200 response. -/
def demoHandler : Ctx → Resp := fun _ => ⟨200, .text "ok"⟩

/-! ## Helper lemmas -/

theorem lookup_mem {s : String} {c : RouteNode} :
    ∀ {l : List (String × RouteNode)}, l.lookup s = some c → (s, c) ∈ l := by
  intro l
  induction l with
  | nil => intro h; simp [List.lookup] at h
  | cons kv rest ih =>
    intro h
    rw [List.lookup] at h
    by_cases hk : (s == kv.1) = true
    · rw [hk] at h
      injection h with h
      have hs : s = kv.1 := eq_of_beq hk
      have hkv : (s, c) = kv := by rw [hs, ← h]
      rw [hkv]
      exact List.mem_cons_self _ _
    · rw [Bool.not_eq_true] at hk
      rw [hk] at h
      exact List.mem_cons_of_mem _ (ih h)

theorem setStatic_mem {s : String} {c : RouteNode} :
    ∀ {l : List (String × RouteNode)} {kv : String × RouteNode},
      kv ∈ setStatic l s c → kv.2 = c ∨ kv ∈ l := by
  intro l
  induction l with
  | nil =>
    intro kv h
    simp [setStatic] at h
    left
    rw [h]
  | cons hd tl ih =>
    intro kv h
    rw [setStatic] at h
    by_cases hk : hd.1 = s
    · rw [if_pos hk] at h
      rcases List.mem_cons.1 h with h1 | h1
      · left; rw [h1]
      · right; exact List.mem_cons_of_mem _ h1
    · rw [if_neg hk] at h
      rcases List.mem_cons.1 h with h1 | h1
      · right; rw [h1]; exact List.mem_cons_self _ _
      · rcases ih h1 with h2 | h2
        · left; exact h2
        · right; exact List.mem_cons_of_mem _ h2

theorem noMix_entries {st : List (String × RouteNode)}
    {d : Option (String × RouteNode)} {w : Option RouteNode}
    {es es' : List (String × RouteEntry)}
    (h : NoMix (.node st d w es)) : NoMix (.node st d w es') := by
  cases h with
  | node hdw hst hd hw => exact .node hdw hst hd hw

theorem noMix_empty : NoMix emptyNode := by
  refine .node ?_ ?_ ?_ ?_
  · simp
  · intro kv h; simp at h
  · intro p c h; simp at h
  · intro w h; simp at h

theorem lookupEntry_ne_nil {es : List (String × RouteEntry)} {m : String}
    {e : RouteEntry} (h : lookupEntry es m = some e) : es.isEmpty = false := by
  cases es with
  | nil => simp [lookupEntry, List.lookup] at h
  | cons kv rest => rfl

theorem runMws_no_respond {ctx : Ctx} :
    ∀ {ms : List Mw},
      ((outcomesOf ms ctx).all fun o => !o.isRespond) = true →
      runMws ms ctx = (ms.map (fun m => Event.mw m.name),
        transformsOf (outcomesOf ms ctx), none) := by
  intro ms
  induction ms with
  | nil => intro _; rfl
  | cons m rest ih =>
    intro h
    simp only [outcomesOf, List.map_cons, List.all_cons, Bool.and_eq_true] at h
    cases ho : m.run ctx with
    | respond r => rw [ho] at h; simp [Outcome.isRespond] at h
    | next =>
      rw [ho] at h
      have := ih h.2
      simp only [runMws, ho, this, outcomesOf, List.map_cons, transformsOf]
    | transform f =>
      rw [ho] at h
      have := ih h.2
      simp only [runMws, ho, this, outcomesOf, List.map_cons, transformsOf]

theorem runMws_respond_at {ctx : Ctx} {mw : Mw} {R : Resp} {gs2 : List Mw}
    (hm : mw.run ctx = .respond R) :
    ∀ {gs1 : List Mw},
      ((outcomesOf gs1 ctx).all fun o => !o.isRespond) = true →
      runMws (gs1 ++ mw :: gs2) ctx =
        (gs1.map (fun m => Event.mw m.name) ++ [Event.mw mw.name],
         transformsOf (outcomesOf gs1 ctx), some R) := by
  intro gs1
  induction gs1 with
  | nil => intro _; simp only [List.nil_append, runMws, hm, outcomesOf,
      List.map_nil, transformsOf]
  | cons m rest ih =>
    intro h
    simp only [outcomesOf, List.map_cons, List.all_cons, Bool.and_eq_true] at h
    cases ho : m.run ctx with
    | respond r => rw [ho] at h; simp [Outcome.isRespond] at h
    | next =>
      rw [ho] at h
      have := ih h.2
      simp only [List.cons_append, runMws, ho, List.append_eq, this,
        outcomesOf, List.map_cons, transformsOf]
    | transform f =>
      rw [ho] at h
      have := ih h.2
      simp only [List.cons_append, runMws, ho, List.append_eq, this,
        outcomesOf, List.map_cons, transformsOf]

theorem matchAt_walk {m : String} :
    ∀ {pre : List String} {n t : RouteNode} {ps : List (String × String)}
      (acc : List (String × String)) (rest : List String),
      walk n pre = some (t, ps) →
      matchAt n acc (pre ++ rest) m = matchAt t (acc ++ ps) rest m := by
  intro pre
  induction pre with
  | nil =>
    intro n t ps acc rest h
    rw [walk] at h
    injection h with h
    injection h with h1 h2
    subst h1; subst h2
    simp
  | cons s pr ih =>
    intro n t ps acc rest h
    cases hfs : findStatic n s with
    | some c =>
      simp only [walk, hfs] at h
      rw [List.cons_append, matchAt, hfs]
      exact ih acc rest h
    | none =>
      cases hd : n.dyn with
      | none => simp [walk, hfs, hd] at h
      | some pc =>
        cases hw : walk pc.2 pr with
        | none => simp [walk, hfs, hd, hw] at h
        | some tr =>
          simp only [walk, hfs, hd, hw, Option.some.injEq, Prod.mk.injEq] at h
          simp only [List.cons_append, matchAt, hfs, hd, List.append_eq]
          have := ih (acc ++ [(pc.1, s)]) rest hw
          rw [this, ← h.1, ← h.2]
          simp

theorem matchAt_staticResolve {m : String} {e : RouteEntry} :
    ∀ {segs : List String} {n t : RouteNode} (acc : List (String × String)),
      staticResolve n segs = some t →
      lookupEntry t.entries m = some e →
      matchAt n acc segs m = .found e acc [] := by
  intro segs
  induction segs with
  | nil =>
    intro n t acc hs hl
    rw [staticResolve] at hs
    injection hs with hs
    subst hs
    rw [matchAt, lookupEntry_ne_nil hl]
    simp [hl]
  | cons s rest ih =>
    intro n t acc hs hl
    rw [staticResolve] at hs
    cases hfs : findStatic n s with
    | none => rw [hfs] at hs; cases hs
    | some c =>
      rw [hfs] at hs
      rw [matchAt, hfs]
      exact ih acc hs hl

theorem matchAt_resolved_methodNotAllowed {m : String} :
    ∀ {segs : List String} {n t : RouteNode} (acc : List (String × String)),
      resolvedNode n segs = some t →
      lookupEntry t.entries m = none →
      matchAt n acc segs m = .methodNotAllowed := by
  intro segs
  induction segs with
  | nil =>
    intro n t acc hr hl
    cases he : n.entries.isEmpty with
    | false =>
      simp only [resolvedNode, he, Bool.false_eq_true, if_false,
        Option.some.injEq] at hr
      subst hr
      simp [matchAt, he, hl]
    | true =>
      cases hw : n.wild with
      | none => simp [resolvedNode, he, hw] at hr
      | some w =>
        cases hwe : w.entries.isEmpty with
        | true => simp [resolvedNode, he, hw, hwe] at hr
        | false =>
          simp only [resolvedNode, he, if_true, hw, hwe, Bool.false_eq_true,
            if_false, Option.some.injEq] at hr
          have hne : ¬ w.entries = [] := by
            intro hnil
            rw [hnil] at hwe
            simp at hwe
          rw [← hr] at hl
          simp [matchAt, he, hw, wildOutcome, hl, hne]
  | cons s rest ih =>
    intro n t acc hr hl
    cases hfs : findStatic n s with
    | some c =>
      simp only [resolvedNode, hfs] at hr
      simp only [matchAt, hfs]
      exact ih acc hr hl
    | none =>
      cases hd : n.dyn with
      | some pc =>
        simp only [resolvedNode, hfs, hd] at hr
        simp only [matchAt, hfs, hd]
        exact ih _ hr hl
      | none =>
        cases hw : n.wild with
        | none => simp [resolvedNode, hfs, hd, hw] at hr
        | some w =>
          cases hwe : w.entries.isEmpty with
          | true => simp [resolvedNode, hfs, hd, hw, hwe] at hr
          | false =>
            simp only [resolvedNode, hfs, hd, hw, hwe, Bool.false_eq_true,
              if_false, Option.some.injEq] at hr
            have hne : ¬ w.entries = [] := by
              intro hnil
              rw [hnil] at hwe
              simp at hwe
            rw [← hr] at hl
            simp [matchAt, hfs, hd, hw, wildOutcome, hl, hne]

theorem matchAt_resolved_notFound {m : String} :
    ∀ {segs : List String} {n : RouteNode} (acc : List (String × String)),
      resolvedNode n segs = none →
      matchAt n acc segs m = .notFound := by
  intro segs
  induction segs with
  | nil =>
    intro n acc hr
    cases he : n.entries.isEmpty with
    | false => simp [resolvedNode, he] at hr
    | true =>
      cases hw : n.wild with
      | none => simp [matchAt, he, hw]
      | some w =>
        cases hwe : w.entries.isEmpty with
        | false => simp [resolvedNode, he, hw, hwe] at hr
        | true =>
          have hnil : w.entries = [] := by
            cases hes : w.entries with
            | nil => rfl
            | cons kv rest => rw [hes] at hwe; simp [List.isEmpty] at hwe
          simp [matchAt, he, hw, wildOutcome, hnil, lookupEntry, List.lookup]
  | cons s rest ih =>
    intro n acc hr
    cases hfs : findStatic n s with
    | some c =>
      simp only [resolvedNode, hfs] at hr
      simp only [matchAt, hfs]
      exact ih acc hr
    | none =>
      cases hd : n.dyn with
      | some pc =>
        simp only [resolvedNode, hfs, hd] at hr
        simp only [matchAt, hfs, hd]
        exact ih _ hr
      | none =>
        cases hw : n.wild with
        | none => simp [matchAt, hfs, hd, hw]
        | some w =>
          cases hwe : w.entries.isEmpty with
          | false => simp [resolvedNode, hfs, hd, hw, hwe] at hr
          | true =>
            have hnil : w.entries = [] := by
              cases hes : w.entries with
              | nil => rfl
              | cons kv rest => rw [hes] at hwe; simp [List.isEmpty] at hwe
            simp [matchAt, hfs, hd, hw, wildOutcome, hnil, lookupEntry,
              List.lookup]

theorem insert_preserves_noMix (m : String) (e : RouteEntry) :
    ∀ (segs : List PatSeg) (n n' : RouteNode),
      NoMix n → insert n segs m e = .ok n' → NoMix n' := by
  intro segs
  induction segs with
  | nil =>
    intro n n' hnm h
    cases n with
    | node st d w es =>
      cases hl : lookupEntry es m with
      | some e0 =>
        simp [insert, RouteNode.entries, hl] at h
      | none =>
        simp only [insert, RouteNode.entries, RouteNode.statics, RouteNode.dyn,
          RouteNode.wild, hl, Except.ok.injEq] at h
        subst h
        exact noMix_entries hnm
  | cons sg rest ih =>
    intro n n' hnm h
    cases sg with
    | group g =>
      simp only [insert] at h
      exact ih n n' hnm h
    | lit s =>
      cases n with
      | node st d w es =>
        cases hfs : findStatic (RouteNode.node st d w es) s with
        | some c =>
          cases hins : insert c rest m e with
          | error er => simp [insert, hfs, hins] at h
          | ok c' =>
            simp only [insert, hfs, Option.getD_some, hins, RouteNode.statics,
              RouteNode.dyn, RouteNode.wild, RouteNode.entries,
              Except.ok.injEq] at h
            subst h
            cases hnm with
            | node hdw hst hd1 hw1 =>
              refine .node hdw ?_ hd1 hw1
              intro kv hkv
              rcases setStatic_mem hkv with h2 | h2
              · rw [h2]
                have hmem : (s, c) ∈ st := lookup_mem hfs
                exact ih c c' (hst (s, c) hmem) hins
              · exact hst kv h2
        | none =>
          cases hins : insert emptyNode rest m e with
          | error er => simp [insert, hfs, hins] at h
          | ok c' =>
            simp only [insert, hfs, Option.getD_none, hins, RouteNode.statics,
              RouteNode.dyn, RouteNode.wild, RouteNode.entries,
              Except.ok.injEq] at h
            subst h
            cases hnm with
            | node hdw hst hd1 hw1 =>
              refine .node hdw ?_ hd1 hw1
              intro kv hkv
              rcases setStatic_mem hkv with h2 | h2
              · rw [h2]
                exact ih emptyNode c' noMix_empty hins
              · exact hst kv h2
    | dyn p =>
      cases n with
      | node st d w es =>
        cases w with
        | some w0 =>
          simp [insert, RouteNode.wild] at h
        | none =>
          cases d with
          | some pc0 =>
            cases hins : insert pc0.2 rest m e with
            | error er =>
              simp [insert, RouteNode.wild, RouteNode.dyn, hins] at h
            | ok c' =>
              simp only [insert, RouteNode.wild, RouteNode.dyn,
                RouteNode.statics, RouteNode.entries, Option.isSome_none,
                Bool.false_eq_true, if_false, Option.getD_some, hins,
                Except.ok.injEq] at h
              subst h
              cases hnm with
              | node hdw hst hd1 hw1 =>
                refine .node ?_ hst ?_ ?_
                · simp
                · intro q c heq
                  have hc : c' = c := by
                    injection heq with heq
                    exact congrArg Prod.snd heq
                  rw [← hc]
                  exact ih pc0.2 c' (hd1 pc0.1 pc0.2 rfl) hins
                · intro w1 heq
                  exact Option.noConfusion heq
          | none =>
            cases hins : insert emptyNode rest m e with
            | error er =>
              simp [insert, RouteNode.wild, RouteNode.dyn, hins] at h
            | ok c' =>
              simp only [insert, RouteNode.wild, RouteNode.dyn,
                RouteNode.statics, RouteNode.entries, Option.isSome_none,
                Bool.false_eq_true, if_false, Option.getD_none, hins,
                Except.ok.injEq] at h
              subst h
              cases hnm with
              | node hdw hst hd1 hw1 =>
                refine .node ?_ hst ?_ ?_
                · simp
                · intro q c heq
                  have hc : c' = c := by
                    injection heq with heq
                    exact congrArg Prod.snd heq
                  rw [← hc]
                  exact ih emptyNode c' noMix_empty hins
                · intro w1 heq
                  exact Option.noConfusion heq
    | wild =>
      cases n with
      | node st d w es =>
        cases hrest : rest with
        | cons sg2 r2 =>
          rw [hrest] at h
          simp [insert] at h
        | nil =>
          rw [hrest] at h
          cases d with
          | some pc0 => simp [insert, RouteNode.dyn] at h
          | none =>
            cases w with
            | some w0 =>
              cases w0 with
              | node wst wd ww wes =>
                cases hl : lookupEntry wes m with
                | some e0 =>
                  simp [insert, RouteNode.wild, RouteNode.dyn,
                    RouteNode.entries, hl] at h
                | none =>
                  simp only [insert, RouteNode.wild, RouteNode.dyn,
                    RouteNode.statics, RouteNode.entries, Option.getD_some,
                    Option.isSome_none, Bool.false_eq_true, if_false, hl,
                    Except.ok.injEq, ne_eq, not_true_eq_false,
                    not_false_eq_true, if_true] at h
                  subst h
                  cases hnm with
                  | node hdw hst hd1 hw1 =>
                    refine .node ?_ hst ?_ ?_
                    · simp
                    · intro q c heq
                      exact Option.noConfusion heq
                    · intro w1 heq
                      injection heq with heq
                      rw [← heq]
                      exact noMix_entries (hw1 (.node wst wd ww wes) rfl)
            | none =>
              have hl : lookupEntry ([] : List (String × RouteEntry)) m = none := rfl
              simp only [insert, RouteNode.wild, RouteNode.dyn,
                RouteNode.statics, RouteNode.entries, Option.getD_none,
                Option.isSome_none, Bool.false_eq_true, if_false, emptyNode,
                hl, List.nil_append, Except.ok.injEq, ne_eq,
                not_true_eq_false, not_false_eq_true, if_true] at h
              subst h
              cases hnm with
              | node hdw hst hd1 hw1 =>
                refine .node ?_ hst ?_ ?_
                · simp
                · intro q c heq
                  exact Option.noConfusion heq
                · intro w1 heq
                  injection heq with heq
                  rw [← heq]
                  exact noMix_entries noMix_empty

theorem insert_dyn_conflict (m : String) (e : RouteEntry) (p : String)
    (rest : List PatSeg) :
    ∀ (pre : List PatSeg) (n t : RouteNode),
      descendPat n pre = some t → PatSeg.wild ∉ pre → t.wild.isSome = true →
      insert n (pre ++ PatSeg.dyn p :: rest) m e =
        .error .conflictingSegmentKind := by
  intro pre
  induction pre with
  | nil =>
    intro n t hd _ hw
    simp only [descendPat, Option.some.injEq] at hd
    subst hd
    simp [insert, hw]
  | cons sg pr ih =>
    intro n t hd hmem hw
    have hmem' : PatSeg.wild ∉ pr := by
      intro hc
      exact hmem (List.mem_cons_of_mem _ hc)
    cases sg with
    | wild => exact absurd (List.mem_cons_self _ _) hmem
    | group g =>
      simp only [descendPat] at hd
      simp only [List.cons_append, insert]
      exact ih n t hd hmem' hw
    | lit s =>
      cases hfs : findStatic n s with
      | none => simp [descendPat, hfs] at hd
      | some c =>
        simp only [descendPat, hfs] at hd
        simp only [List.cons_append, insert, hfs, Option.getD_some,
          List.append_eq]
        rw [ih c t hd hmem' hw]
    | dyn q =>
      cases hnw : n.wild with
      | some w0 =>
        simp [List.cons_append, insert, hnw]
      | none =>
        cases hnd : n.dyn with
        | none => simp [descendPat, hnd] at hd
        | some pc =>
          simp only [descendPat, hnd] at hd
          simp only [List.cons_append, insert, hnw, hnd, Option.isSome_none,
            Bool.false_eq_true, if_false, Option.getD_some, List.append_eq]
          rw [ih pc.2 t hd hmem' hw]

theorem insert_wild_conflict (m : String) (e : RouteEntry) :
    ∀ (pre : List PatSeg) (n t : RouteNode),
      descendPat n pre = some t → PatSeg.wild ∉ pre → t.dyn.isSome = true →
      insert n (pre ++ [PatSeg.wild]) m e = .error .conflictingSegmentKind := by
  intro pre
  induction pre with
  | nil =>
    intro n t hd _ hdy
    simp only [descendPat, Option.some.injEq] at hd
    subst hd
    simp [insert, hdy]
  | cons sg pr ih =>
    intro n t hd hmem hdy
    have hmem' : PatSeg.wild ∉ pr := by
      intro hc
      exact hmem (List.mem_cons_of_mem _ hc)
    cases sg with
    | wild => exact absurd (List.mem_cons_self _ _) hmem
    | group g =>
      simp only [descendPat] at hd
      simp only [List.cons_append, insert]
      exact ih n t hd hmem' hdy
    | lit s =>
      cases hfs : findStatic n s with
      | none => simp [descendPat, hfs] at hd
      | some c =>
        simp only [descendPat, hfs] at hd
        simp only [List.cons_append, insert, hfs, Option.getD_some,
          List.append_eq]
        rw [ih c t hd hmem' hdy]
    | dyn q =>
      cases hnw : n.wild with
      | some w0 =>
        simp [List.cons_append, insert, hnw]
      | none =>
        cases hnd : n.dyn with
        | none => simp [descendPat, hnd] at hd
        | some pc =>
          simp only [descendPat, hnd] at hd
          simp only [List.cons_append, insert, hnw, hnd, Option.isSome_none,
            Bool.false_eq_true, if_false, Option.getD_some, List.append_eq]
          rw [ih pc.2 t hd hmem' hdy]

/-! ## The claims -/

/-- Claim C1: for every route trie and every registered static route, a
request whose path equals that route's literal path exactly and whose
method is registered there resolves to that static route's entry (with no
dynamic bindings and no wildcard capture), never to a dynamic or wildcard
sibling's entry; in particular, with /admin/settings (static) and
/admin/[section] (dynamic) both registered, GET /admin/settings matches
the static route. -/
theorem c1_static_route_always_wins :
    (∀ (n : RouteNode) (segs : List String) (t : RouteNode) (m : String)
        (e : RouteEntry),
      staticResolve n segs = some t →
      lookupEntry t.entries m = some e →
      matchAt n [] segs m = .found e [] [])
    ∧ resolve adminTrie "GET" "/admin/settings" = .found entryStatic [] [] := by
  constructor
  · intro n segs t m e hs hl
    exact matchAt_staticResolve [] hs hl
  · rfl

/-- Witness for C1 at the admin scenario trie. -/
theorem c1_static_route_always_wins_witness :
    staticResolve adminTrie ["admin", "settings"] = some adminSettingsNode
    ∧ lookupEntry adminSettingsNode.entries "GET" = some entryStatic
    ∧ matchAt adminTrie [] ["admin", "settings"] "GET"
        = .found entryStatic [] [] :=
  ⟨rfl, rfl, c1_static_route_always_wins.1 adminTrie ["admin", "settings"]
    adminSettingsNode "GET" entryStatic rfl rfl⟩

/-- Claim C2: the matcher commits to the first matching child in priority
order and never backtracks: when a static child matches the first segment
but dead-ends deeper in the tree, the result is NotFound even though a
lower-priority sibling at the same depth — dynamic or wildcard — would
have produced a match. -/
theorem c2_no_backtracking :
    ∀ (n : RouteNode) (s : String) (rest : List String)
      (acc : List (String × String)) (m : String) (c : RouteNode)
      (e : RouteEntry) (ps : List (String × String)) (ws : List String),
      findStatic n s = some c →
      matchAt c acc rest m = .notFound →
      ((∃ p d, n.dyn = some (p, d)
          ∧ matchAt d (acc ++ [(p, s)]) rest m = .found e ps ws)
        ∨ (∃ w, n.wild = some w
          ∧ wildOutcome w acc (s :: rest) m = .found e ps ws)) →
      matchAt n acc (s :: rest) m = .notFound := by
  intro n s rest acc m c e ps ws hfs hdead _
  simp only [matchAt, hfs]
  exact hdead

/-- Witness for C2: with /a/b (static) and /[x]/c (dynamic) registered,
GET /a/c is NotFound although the dynamic branch would have matched; with
/a/b (static) and /[...] (wildcard) registered, GET /a/c is NotFound
although the wildcard sibling would have matched. -/
theorem c2_no_backtracking_witness :
    matchAt deadEndTrie [] ["a", "c"] "GET" = .notFound
    ∧ matchAt deadEndWildTrie [] ["a", "c"] "GET" = .notFound :=
  ⟨c2_no_backtracking deadEndTrie "a" ["c"] [] "GET" deadEndANode
      entrySection [("x", "a")] [] rfl rfl
      (Or.inl ⟨"x", deadEndDynNode, rfl, rfl⟩),
   c2_no_backtracking deadEndWildTrie "a" ["c"] [] "GET" deadEndWildANode
      entrySection [] ["a", "c"] rfl rfl
      (Or.inr ⟨deadEndWildNode, rfl, rfl⟩)⟩

/-- Claim C5: for every request path that reaches a registered wildcard
node, the wildcard capture list is exactly the remaining path segments
past the wildcard boundary, in left-to-right order; with zero remaining
segments the wildcard still matches with an empty capture list. -/
theorem c5_wildcard_captures_remaining :
    ∀ (n : RouteNode) (pre : List String) (t : RouteNode)
      (ps : List (String × String)) (rest : List String) (m : String)
      (w : RouteNode) (e : RouteEntry),
      walk n pre = some (t, ps) →
      t.wild = some w →
      lookupEntry w.entries m = some e →
      (match rest with
       | [] => t.entries = []
       | s :: _ => findStatic t s = none ∧ t.dyn = none) →
      matchAt n [] (pre ++ rest) m = .found e ps rest := by
  intro n pre t ps rest m w e hwalk hw hl hcond
  rw [matchAt_walk [] rest hwalk]
  cases rest with
  | nil =>
    have he : t.entries.isEmpty = true := by rw [hcond]; rfl
    simp [matchAt, he, hw, wildOutcome, hl]
  | cons s rs =>
    obtain ⟨hfs, hd⟩ := hcond
    simp [matchAt, hfs, hd, hw, wildOutcome, hl]

/-- Witness for C5 at the files trie: GET /files/a/b/c.txt captures all
three remaining segments, and GET /files captures the empty list. -/
theorem c5_wildcard_captures_remaining_witness :
    matchAt filesTrie [] (["files"] ++ ["a", "b", "c.txt"]) "GET"
      = .found entryFiles [] ["a", "b", "c.txt"]
    ∧ matchAt filesTrie [] (["files"] ++ []) "GET" = .found entryFiles [] [] :=
  ⟨c5_wildcard_captures_remaining filesTrie ["files"] filesNode []
      ["a", "b", "c.txt"] "GET" filesWildNode entryFiles rfl rfl rfl ⟨rfl, rfl⟩,
   c5_wildcard_captures_remaining filesTrie ["files"] filesNode [] [] "GET"
      filesWildNode entryFiles rfl rfl rfl rfl⟩

/-- Claim C6: when a path segment has no exact static child but a dynamic
child is registered at that depth, the matcher commits to the dynamic
child with its parameter bound to the exact literal segment string; in
particular with /users/[id] registered for GET, GET /users/42 yields
params id = 42 and resolves to the registered entry. -/
theorem c6_dynamic_binds_literal :
    (∀ (n : RouteNode) (pre : List String) (t : RouteNode)
        (ps : List (String × String)) (s : String) (rest : List String)
        (m p : String) (d : RouteNode),
      walk n pre = some (t, ps) →
      findStatic t s = none →
      t.dyn = some (p, d) →
      matchAt n [] (pre ++ s :: rest) m = matchAt d (ps ++ [(p, s)]) rest m)
    ∧ resolve usersTrie "GET" "/users/42" = .found entryUser [("id", "42")] [] := by
  constructor
  · intro n pre t ps s rest m p d hwalk hfs hd
    rw [matchAt_walk [] (s :: rest) hwalk]
    simp [matchAt, hfs, hd]
  · rfl

/-- Witness for C6 at the users trie. -/
theorem c6_dynamic_binds_literal_witness :
    matchAt usersTrie [] (["users"] ++ ["42"]) "GET"
      = matchAt userIdNode ([] ++ [("id", "42")]) [] "GET" :=
  c6_dynamic_binds_literal.1 usersTrie ["users"] usersNode [] "42" [] "GET"
    "id" userIdNode rfl rfl rfl

/-- Claim C8: registering a dynamic segment where a wildcard sibling exists
at that depth (or vice versa) fails at registration time with
ConflictingSegmentKind, and a successful insertion never produces a node
with both a dynamic child and a wildcard child. -/
theorem c8_sibling_kind_conflict :
    (∀ (segs : List PatSeg) (n n' : RouteNode) (m : String) (e : RouteEntry),
      NoMix n → insert n segs m e = .ok n' → NoMix n')
    ∧ (∀ (pre : List PatSeg) (n t : RouteNode) (p : String)
        (rest : List PatSeg) (m : String) (e : RouteEntry),
      descendPat n pre = some t → PatSeg.wild ∉ pre → t.wild.isSome = true →
      insert n (pre ++ PatSeg.dyn p :: rest) m e
        = .error .conflictingSegmentKind)
    ∧ (∀ (pre : List PatSeg) (n t : RouteNode) (m : String) (e : RouteEntry),
      descendPat n pre = some t → PatSeg.wild ∉ pre → t.dyn.isSome = true →
      insert n (pre ++ [PatSeg.wild]) m e = .error .conflictingSegmentKind) :=
  ⟨fun segs n n' m e => insert_preserves_noMix m e segs n n',
   fun pre n t p rest m e => insert_dyn_conflict m e p rest pre n t,
   fun pre n t m e => insert_wild_conflict m e pre n t⟩

/-- Witness for C8: registering /products/[id] keeps the no-mixing
invariant, and then registering /products/[...] fails with
ConflictingSegmentKind. -/
theorem c8_sibling_kind_conflict_witness :
    NoMix productsTrie
    ∧ insert productsTrie [PatSeg.lit "products", PatSeg.wild] "GET"
        entrySection = .error .conflictingSegmentKind := by
  refine ⟨?_, ?_⟩
  · exact c8_sibling_kind_conflict.1 [PatSeg.lit "products", PatSeg.dyn "id"]
      emptyNode productsTrie "GET" entryStatic noMix_empty rfl
  · exact c8_sibling_kind_conflict.2.2 [PatSeg.lit "products"] productsTrie
      productsNode "GET" entrySection rfl (by decide) rfl

/-- Claim C9: a request whose path resolves to an entry-bearing node that
lacks an entry for the request's method yields MethodNotAllowed, while a
request whose path resolves to no entry-bearing node yields NotFound, and
the two outcomes are distinct. -/
theorem c9_method_not_allowed_distinct :
    (∀ (n t : RouteNode) (segs : List String) (m : String),
      resolvedNode n segs = some t →
      t.entries ≠ [] →
      lookupEntry t.entries m = none →
      matchAt n [] segs m = .methodNotAllowed)
    ∧ (∀ (n : RouteNode) (segs : List String) (m : String),
      resolvedNode n segs = none →
      matchAt n [] segs m = .notFound)
    ∧ MatchOutcome.methodNotAllowed ≠ MatchOutcome.notFound := by
  refine ⟨?_, ?_, by simp⟩
  · intro n t segs m hr _ hl
    exact matchAt_resolved_methodNotAllowed [] hr hl
  · intro n segs m hr
    exact matchAt_resolved_notFound [] hr

/-- Witness for C9: POST to the registered path /admin/settings is
MethodNotAllowed while GET to the unregistered path /nope is NotFound. -/
theorem c9_method_not_allowed_distinct_witness :
    matchAt adminTrie [] ["admin", "settings"] "POST" = .methodNotAllowed
    ∧ matchAt filesTrie [] ["nope"] "GET" = .notFound :=
  ⟨c9_method_not_allowed_distinct.1 adminTrie adminSettingsNode
      ["admin", "settings"] "POST" rfl (by decide) rfl,
   c9_method_not_allowed_distinct.2.1 filesTrie ["nope"] "GET" rfl⟩

/-- Claim C3: when no stage short-circuits, the pipeline stages execute in
exactly the order global middleware (in registration order), validation
(only because a schema is declared), route middleware (in list order),
handler; without a declared schema the validation stage does not appear. -/
theorem c3_stage_order :
    (∀ (gs rms : List Mw) (ss : SchemaSet) (h : Ctx → Resp) (ctx : Ctx),
      ((outcomesOf gs ctx).all fun o => !o.isRespond) = true →
      ((outcomesOf rms (ctxAfterValidation (some ss) ctx)).all
        fun o => !o.isRespond) = true →
      validationOk (some ss) ctx = true →
      (dispatch gs (some ss) rms h ctx).trace
        = gs.map (fun m => Event.mw m.name) ++ [Event.validation]
          ++ rms.map (fun m => Event.mw m.name) ++ [Event.handler])
    ∧ (∀ (gs rms : List Mw) (h : Ctx → Resp) (ctx : Ctx),
      ((outcomesOf gs ctx).all fun o => !o.isRespond) = true →
      ((outcomesOf rms ctx).all fun o => !o.isRespond) = true →
      (dispatch gs none rms h ctx).trace
        = gs.map (fun m => Event.mw m.name)
          ++ rms.map (fun m => Event.mw m.name) ++ [Event.handler]) := by
  constructor
  · intro gs rms ss h ctx hg hr hv
    have hv' : ((validateAll ss ctx).1.isEmpty
        && (validateAll ss ctx).2.1.isEmpty
        && (validateAll ss ctx).2.2.isEmpty) = true := by
      simpa [validationOk] using hv
    simp [dispatch, runMws_no_respond hg, hv', dispatchTail,
      runMws_no_respond hr]
  · intro gs rms h ctx hg hr
    simp [dispatch, runMws_no_respond hg, dispatchTail, runMws_no_respond hr]

/-- Witness for C3: global [A, B], schema on the route, route middleware
[C]: the trace is A, B, validation, C, handler. -/
theorem c3_stage_order_witness :
    (dispatch [mwNext "A", mwNext "B"] (some demoSchema) [mwNext "C"]
        demoHandler demoGoodCtx).trace
      = [mwNext "A", mwNext "B"].map (fun m => Event.mw m.name)
        ++ [Event.validation]
        ++ [mwNext "C"].map (fun m => Event.mw m.name) ++ [Event.handler] :=
  c3_stage_order.1 [mwNext "A", mwNext "B"] [mwNext "C"] demoSchema
    demoHandler demoGoodCtx rfl rfl rfl

/-- Claim C4: any middleware Respond short-circuits the pipeline — a global
middleware Respond skips validation, route middleware and handler, and a
route middleware Respond skips the remaining route middleware and the
handler — yet every Transform registered before that point (global and
earlier route middleware alike) still applies to the early response; and
on the handler path all registered post-processors apply to the final
response in reverse order of registration (last pushed, first applied,
hence the foldr over the registration-ordered list). -/
theorem c4_short_circuit_and_unwind :
    (∀ (gs1 : List Mw) (mw : Mw) (gs2 : List Mw) (ss? : Option SchemaSet)
        (rms : List Mw) (h : Ctx → Resp) (ctx : Ctx) (R : Resp),
      ((outcomesOf gs1 ctx).all fun o => !o.isRespond) = true →
      mw.run ctx = .respond R →
      (dispatch (gs1 ++ mw :: gs2) ss? rms h ctx).trace
          = gs1.map (fun m => Event.mw m.name) ++ [Event.mw mw.name]
        ∧ (dispatch (gs1 ++ mw :: gs2) ss? rms h ctx).response
          = (transformsOf (outcomesOf gs1 ctx)).foldr (fun f r => f r) R)
    ∧ (∀ (gs : List Mw) (ss? : Option SchemaSet) (rms1 : List Mw) (mw : Mw)
        (rms2 : List Mw) (h : Ctx → Resp) (ctx : Ctx) (R : Resp),
      ((outcomesOf gs ctx).all fun o => !o.isRespond) = true →
      validationOk ss? ctx = true →
      ((outcomesOf rms1 (ctxAfterValidation ss? ctx)).all
        fun o => !o.isRespond) = true →
      mw.run (ctxAfterValidation ss? ctx) = .respond R →
      (dispatch gs ss? (rms1 ++ mw :: rms2) h ctx).trace
          = gs.map (fun m => Event.mw m.name) ++ validationEvents ss?
            ++ rms1.map (fun m => Event.mw m.name) ++ [Event.mw mw.name]
        ∧ (dispatch gs ss? (rms1 ++ mw :: rms2) h ctx).response
          = (transformsOf (outcomesOf gs ctx)
              ++ transformsOf (outcomesOf rms1 (ctxAfterValidation ss? ctx))).foldr
                (fun f r => f r) R)
    ∧ (∀ (gs rms : List Mw) (ss? : Option SchemaSet) (h : Ctx → Resp)
        (ctx : Ctx),
      ((outcomesOf gs ctx).all fun o => !o.isRespond) = true →
      validationOk ss? ctx = true →
      ((outcomesOf rms (ctxAfterValidation ss? ctx)).all
        fun o => !o.isRespond) = true →
      (dispatch gs ss? rms h ctx).response
        = (transformsOf (outcomesOf gs ctx)
            ++ transformsOf (outcomesOf rms (ctxAfterValidation ss? ctx))).foldr
              (fun f r => f r) (h (ctxAfterValidation ss? ctx))) := by
  refine ⟨?_, ?_, ?_⟩
  · intro gs1 mw gs2 ss? rms h ctx R hg hm
    constructor
    · simp [dispatch, runMws_respond_at hm hg]
    · simp [dispatch, runMws_respond_at hm hg, applyTransforms]
  · intro gs ss? rms1 mw rms2 h ctx R hg hv hr1 hm
    cases ss? with
    | none =>
      simp only [ctxAfterValidation] at hr1 hm ⊢
      constructor
      · simp [dispatch, runMws_no_respond hg, dispatchTail,
          runMws_respond_at hm hr1, validationEvents]
      · simp [dispatch, runMws_no_respond hg, dispatchTail,
          runMws_respond_at hm hr1, applyTransforms]
    | some ss =>
      have hv' : ((validateAll ss ctx).1.isEmpty
          && (validateAll ss ctx).2.1.isEmpty
          && (validateAll ss ctx).2.2.isEmpty) = true := by
        simpa [validationOk] using hv
      constructor
      · simp [dispatch, runMws_no_respond hg, hv', dispatchTail,
          runMws_respond_at hm hr1, validationEvents]
      · simp [dispatch, runMws_no_respond hg, hv', dispatchTail,
          runMws_respond_at hm hr1, applyTransforms]
  · intro gs rms ss? h ctx hg hv hr
    cases ss? with
    | none =>
      simp only [ctxAfterValidation] at hr ⊢
      simp [dispatch, runMws_no_respond hg, dispatchTail,
        runMws_no_respond hr, applyTransforms]
    | some ss =>
      have hv' : ((validateAll ss ctx).1.isEmpty
          && (validateAll ss ctx).2.1.isEmpty
          && (validateAll ss ctx).2.2.isEmpty) = true := by
        simpa [validationOk] using hv
      simp [dispatch, runMws_no_respond hg, hv', dispatchTail,
        runMws_no_respond hr, applyTransforms]

/-- Witness for C4: transforms A and B before a global Respond X still
apply to the early response in reverse order, skipping validation, route
middleware and handler; a route middleware Respond Y after transform C
skips the handler while the transforms of A and C apply in reverse order;
and on the handler path the transforms of A and C also apply in reverse
order. -/
theorem c4_short_circuit_and_unwind_witness :
    (dispatch ([mwTrans "A" (tagBody "a"), mwTrans "B" (tagBody "b")]
        ++ mwRespond "X" ⟨401, .text "no"⟩ :: []) (some demoSchema)
        [mwNext "C"] demoHandler demoBadCtx).trace
      = [Event.mw "A", Event.mw "B", Event.mw "X"]
    ∧ (dispatch ([mwTrans "A" (tagBody "a"), mwTrans "B" (tagBody "b")]
        ++ mwRespond "X" ⟨401, .text "no"⟩ :: []) (some demoSchema)
        [mwNext "C"] demoHandler demoBadCtx).response
      = ⟨401, .text "no+b+a"⟩
    ∧ (dispatch [mwTrans "A" (tagBody "a")] (some demoSchema)
        ([mwTrans "C" (tagBody "c")]
          ++ mwRespond "Y" ⟨403, .text "stop"⟩ :: [])
        demoHandler demoGoodCtx).trace
      = [Event.mw "A", Event.validation, Event.mw "C", Event.mw "Y"]
    ∧ (dispatch [mwTrans "A" (tagBody "a")] (some demoSchema)
        ([mwTrans "C" (tagBody "c")]
          ++ mwRespond "Y" ⟨403, .text "stop"⟩ :: [])
        demoHandler demoGoodCtx).response
      = ⟨403, .text "stop+c+a"⟩
    ∧ (dispatch [mwTrans "A" (tagBody "a")] none [mwTrans "C" (tagBody "c")]
        demoHandler demoGoodCtx).response = ⟨200, .text "ok+c+a"⟩ := by
  have h1 := c4_short_circuit_and_unwind.1
    [mwTrans "A" (tagBody "a"), mwTrans "B" (tagBody "b")]
    (mwRespond "X" ⟨401, .text "no"⟩) [] (some demoSchema) [mwNext "C"]
    demoHandler demoBadCtx ⟨401, .text "no"⟩ rfl rfl
  have h2 := c4_short_circuit_and_unwind.2.1 [mwTrans "A" (tagBody "a")]
    (some demoSchema) [mwTrans "C" (tagBody "c")]
    (mwRespond "Y" ⟨403, .text "stop"⟩) [] demoHandler demoGoodCtx
    ⟨403, .text "stop"⟩ rfl rfl rfl rfl
  have h3 := c4_short_circuit_and_unwind.2.2 [mwTrans "A" (tagBody "a")]
    [mwTrans "C" (tagBody "c")] none demoHandler demoGoodCtx rfl rfl rfl
  exact ⟨h1.1.trans rfl, h1.2.trans rfl, h2.1.trans rfl, h2.2.trans rfl,
    h3.trans rfl⟩

/-- Claim C7: when the matched route declares a schema and validation of a
declared input source fails, the dispatcher produces the structured 400
response (grouping failures by source with code, path and message) without
running route middleware or the handler; in particular a POST body schema
requiring a string field name, given the number 5, yields a 400 whose body
failures hold one entry with code invalid_type and path [name]. -/
theorem c7_validation_failure_400 :
    (∀ (gs : List Mw) (ss : SchemaSet) (rms : List Mw) (h : Ctx → Resp)
        (ctx : Ctx) (ep eqr eb : List Issue),
      ((outcomesOf gs ctx).all fun o => !o.isRespond) = true →
      validateAll ss ctx = (ep, eqr, eb) →
      (ep.isEmpty && eqr.isEmpty && eb.isEmpty) = false →
      (dispatch gs (some ss) rms h ctx).trace
          = gs.map (fun m => Event.mw m.name) ++ [Event.validation]
        ∧ (dispatch gs (some ss) rms h ctx).response
          = applyTransforms (transformsOf (outcomesOf gs ctx))
              (validationErrorResp ep eqr eb)
        ∧ (validationErrorResp ep eqr eb).status = 400)
    ∧ dispatch [] (some demoSchema) [] demoHandler demoBadCtx
        = { trace := [Event.validation],
            response :=
              { status := 400,
                body := Body.errors [] []
                  [{ code := "invalid_type", path := ["name"],
                     message := "Invalid input: expected string, received number" }] } } := by
  constructor
  · intro gs ss rms h ctx ep eqr eb hg hv hfail
    have hv1 : (validateAll ss ctx).1 = ep := by rw [hv]
    have hv2 : (validateAll ss ctx).2.1 = eqr := by rw [hv]
    have hv3 : (validateAll ss ctx).2.2 = eb := by rw [hv]
    refine ⟨?_, ?_, rfl⟩
    · simp [dispatch, runMws_no_respond hg, hv1, hv2, hv3, hfail]
    · simp [dispatch, runMws_no_respond hg, hv1, hv2, hv3, hfail]
  · rfl

/-- Witness for C7 at the documented body-schema scenario. -/
theorem c7_validation_failure_400_witness :
    (dispatch [mwNext "A"] (some demoSchema) [mwNext "C"] demoHandler
        demoBadCtx).trace
      = [mwNext "A"].map (fun m => Event.mw m.name) ++ [Event.validation]
    ∧ (dispatch [mwNext "A"] (some demoSchema) [mwNext "C"] demoHandler
        demoBadCtx).response
      = applyTransforms (transformsOf (outcomesOf [mwNext "A"] demoBadCtx))
          (validationErrorResp [] []
            [{ code := "invalid_type", path := ["name"],
               message := "Invalid input: expected string, received number" }]) := by
  have h := c7_validation_failure_400.1 [mwNext "A"] demoSchema [mwNext "C"]
    demoHandler demoBadCtx [] []
    [{ code := "invalid_type", path := ["name"],
       message := "Invalid input: expected string, received number" }]
    rfl rfl rfl
  exact ⟨h.1, h.2.1⟩

/-- Claim C10: the validation stage reads only the declared params, query
and body schemas: its verdict is unchanged under any replacement of the
wildcard capture, the wildcard capture reaches later stages (and hence the
handler) exactly as extracted, and on validation success the handler
receives the post-validation context — so the wildcard segments can never
by themselves produce the validation 400. -/
theorem c10_wildcard_not_validated :
    ∀ (ss : SchemaSet) (ctx : Ctx) (ws : List String) (h : Ctx → Resp),
      validateAll ss { ctx with wildcard := ws } = validateAll ss ctx
      ∧ (ctxAfterValidation (some ss) ctx).wildcard = ctx.wildcard
      ∧ validationOk (some ss) { ctx with wildcard := ws }
          = validationOk (some ss) ctx
      ∧ (validationOk (some ss) ctx = true →
          (dispatch [] (some ss) [] h ctx).response
            = h (ctxAfterValidation (some ss) ctx)) := by
  intro ss ctx ws h
  refine ⟨rfl, rfl, rfl, ?_⟩
  intro hv
  have hv' : ((validateAll ss ctx).1.isEmpty
      && (validateAll ss ctx).2.1.isEmpty
      && (validateAll ss ctx).2.2.isEmpty) = true := by
    simpa [validationOk] using hv
  simp [dispatch, runMws, hv', dispatchTail, applyTransforms]

/-- Witness for C10 at the demo schema and a replaced wildcard capture. -/
theorem c10_wildcard_not_validated_witness :
    validateAll demoSchema { demoGoodCtx with wildcard := ["x"] }
        = validateAll demoSchema demoGoodCtx
    ∧ (ctxAfterValidation (some demoSchema) demoGoodCtx).wildcard
        = demoGoodCtx.wildcard
    ∧ validationOk (some demoSchema) { demoGoodCtx with wildcard := ["x"] }
        = validationOk (some demoSchema) demoGoodCtx
    ∧ (dispatch [] (some demoSchema) [] demoHandler demoGoodCtx).response
        = demoHandler (ctxAfterValidation (some demoSchema) demoGoodCtx) := by
  have h := c10_wildcard_not_validated demoSchema demoGoodCtx ["x"] demoHandler
  exact ⟨h.1, h.2.1, h.2.2.1, h.2.2.2 rfl⟩

end BurgerApi
